import Mathlib

/-!
Verification of the Modbus-server example repository.

The repository's only source file wires a pre-built Modbus protocol engine
to a static data table and a UDP listener.  The data-table configuration
(four address spaces, base address 0, 100 entries each, all initialized to
20, a single shared unit context) is embedded below directly from
`src/example/modbus_server_udp.py`.  The protocol engine itself (register
store access, function dispatch, response and exception encoding) is not
part of the repository's sources; it is modelled here from the design
specification's contracts (Register Store, Function Dispatcher, Response
Encoder) and the claims are settled against that model.
-/

/-- One sequential data block as configured in the source:
`ModbusSequentialDataBlock(address, values)`. -/
structure ModbusSequentialDataBlock where
  address : Nat
  values : List Nat
deriving DecidableEq

/-- The slave context as configured in the source: four address spaces
(discrete inputs, coils, holding registers, input registers). -/
structure ModbusSlaveContext where
  di : ModbusSequentialDataBlock
  co : ModbusSequentialDataBlock
  hr : ModbusSequentialDataBlock
  ir : ModbusSequentialDataBlock
deriving DecidableEq

/-- The store built in `run_modbus_server`:
each space is `ModbusSequentialDataBlock(0, [20] * 100)`. -/
def exampleSlaveContext : ModbusSlaveContext :=
  { di := ⟨0, List.replicate 100 20⟩
    co := ⟨0, List.replicate 100 20⟩
    hr := ⟨0, List.replicate 100 20⟩
    ir := ⟨0, List.replicate 100 20⟩ }

/-- Modelled from the spec: the Register Store is four independent mappings
from addresses to values; here each space is the list of its values, the
configured extent being the list's length (base address 0). -/
structure Store where
  di : List Nat
  co : List Nat
  hr : List Nat
  ir : List Nat
deriving DecidableEq

/-- The Register Store corresponding to the source's configuration. -/
def initStore : Store :=
  { di := exampleSlaveContext.di.values
    co := exampleSlaveContext.co.values
    hr := exampleSlaveContext.hr.values
    ir := exampleSlaveContext.ir.values }

/-- Modelled from the spec: a typed request as produced by the Request
Decoder.  Unrecognized function codes decode as a generic request tagged
unsupported, carrying only the offending function code. -/
inductive Request where
  | readCoils (addr count : Nat)
  | readDiscreteInputs (addr count : Nat)
  | readHoldingRegisters (addr count : Nat)
  | readInputRegisters (addr count : Nat)
  | writeSingleCoil (addr value : Nat)
  | writeSingleRegister (addr value : Nat)
  | writeMultipleCoils (addr : Nat) (bits : List Nat)
  | writeMultipleRegisters (addr : Nat) (values : List Nat)
  | unsupported (fc : Nat)
deriving DecidableEq

/-- Modelled from the spec: a typed response, either a success payload or
an exception carrying the original function code and an exception code. -/
inductive Response where
  | readBitsOk (fc : Nat) (bits : List Nat)
  | readRegsOk (fc : Nat) (regs : List Nat)
  | writeOk (fc : Nat) (addr qtyOrValue : Nat)
  | exception (fc code : Nat)
deriving DecidableEq

def illegalFunction : Nat := 1
def illegalDataAddress : Nat := 2
def illegalDataValue : Nat := 3

/-- The function codes the Request Decoder recognizes (spec 4.2). -/
def recognizedFunctionCodes : List Nat := [1, 2, 3, 4, 5, 6, 15, 16]

/-- Read `count` values starting at `addr` from one address space. -/
def readSlice (l : List Nat) (addr count : Nat) : List Nat :=
  (l.drop addr).take count

/-- Overwrite the range starting at `addr` with `vs`, leaving everything
outside the range unchanged. -/
def writeRange (l : List Nat) (addr : Nat) (vs : List Nat) : List Nat :=
  l.take addr ++ vs ++ l.drop (addr + vs.length)

/-- The single-bit value a coil write stores: 0xFF00 means ON. -/
def bitOf (v : Nat) : Nat := if v = 0 then 0 else 1

/-- Modelled from the spec: the Function Dispatcher.  Per request it first
validates quantity and value ranges against the protocol-declared limits
(exception ILLEGAL_DATA_VALUE), then checks the address range against the
configured extent via the Register Store (exception ILLEGAL_DATA_ADDRESS),
then executes; unsupported function codes get ILLEGAL_FUNCTION.  It returns
the typed response together with the (possibly updated) store. -/
def dispatch (req : Request) (st : Store) : Response × Store :=
  match req with
  | .readCoils a c =>
      if c < 1 ∨ 2000 < c then (.exception 1 illegalDataValue, st)
      else if st.co.length < a + c then (.exception 1 illegalDataAddress, st)
      else (.readBitsOk 1 (readSlice st.co a c), st)
  | .readDiscreteInputs a c =>
      if c < 1 ∨ 2000 < c then (.exception 2 illegalDataValue, st)
      else if st.di.length < a + c then (.exception 2 illegalDataAddress, st)
      else (.readBitsOk 2 (readSlice st.di a c), st)
  | .readHoldingRegisters a c =>
      if c < 1 ∨ 2000 < c then (.exception 3 illegalDataValue, st)
      else if st.hr.length < a + c then (.exception 3 illegalDataAddress, st)
      else (.readRegsOk 3 (readSlice st.hr a c), st)
  | .readInputRegisters a c =>
      if c < 1 ∨ 2000 < c then (.exception 4 illegalDataValue, st)
      else if st.ir.length < a + c then (.exception 4 illegalDataAddress, st)
      else (.readRegsOk 4 (readSlice st.ir a c), st)
  | .writeSingleCoil a v =>
      if v ≠ 0 ∧ v ≠ 0xFF00 then (.exception 5 illegalDataValue, st)
      else if st.co.length < a + 1 then (.exception 5 illegalDataAddress, st)
      else (.writeOk 5 a v, { st with co := writeRange st.co a [bitOf v] })
  | .writeSingleRegister a v =>
      if 65536 ≤ v then (.exception 6 illegalDataValue, st)
      else if st.hr.length < a + 1 then (.exception 6 illegalDataAddress, st)
      else (.writeOk 6 a v, { st with hr := writeRange st.hr a [v] })
  | .writeMultipleCoils a bits =>
      if bits.length < 1 ∨ 1968 < bits.length then (.exception 15 illegalDataValue, st)
      else if ∃ b ∈ bits, 2 ≤ b then (.exception 15 illegalDataValue, st)
      else if st.co.length < a + bits.length then (.exception 15 illegalDataAddress, st)
      else (.writeOk 15 a bits.length, { st with co := writeRange st.co a bits })
  | .writeMultipleRegisters a vals =>
      if vals.length < 1 ∨ 123 < vals.length then (.exception 16 illegalDataValue, st)
      else if ∃ x ∈ vals, 65536 ≤ x then (.exception 16 illegalDataValue, st)
      else if st.hr.length < a + vals.length then (.exception 16 illegalDataAddress, st)
      else (.writeOk 16 a vals.length, { st with hr := writeRange st.hr a vals })
  | .unsupported fc => (.exception fc illegalFunction, st)

/-- The byte holding bits `8*j .. 8*j+7` of a bit array, bit 0 of the byte
being the lowest address; bits past the end of the array pad with zero. -/
def byteFromBits (bits : List Nat) (j : Nat) : Nat :=
  bitOf (bits.getD (8 * j) 0)
    + 2 * bitOf (bits.getD (8 * j + 1) 0)
    + 4 * bitOf (bits.getD (8 * j + 2) 0)
    + 8 * bitOf (bits.getD (8 * j + 3) 0)
    + 16 * bitOf (bits.getD (8 * j + 4) 0)
    + 32 * bitOf (bits.getD (8 * j + 5) 0)
    + 64 * bitOf (bits.getD (8 * j + 6) 0)
    + 128 * bitOf (bits.getD (8 * j + 7) 0)

/-- Modelled from the spec: pack a bit array into bytes, bit 0 at the
lowest address, zero-padded to a byte boundary. -/
def packBits (bits : List Nat) : List Nat :=
  (List.range ((bits.length + 7) / 8)).map (byteFromBits bits)

/-- Modelled from the spec: big-endian 16-bit encoding of a register list
(high byte first). -/
def regBytes : List Nat → List Nat
  | [] => []
  | v :: rest => v / 256 % 256 :: v % 256 :: regBytes rest

/-- Modelled from the spec: the Response Encoder.  Success responses echo
the function code; read responses carry a byte count followed by the data
bytes; write responses echo starting address and quantity or value, each
big-endian 16-bit; exceptions carry the function code with the high bit
0x80 set followed by the single exception-code byte. -/
def encodeResponse : Response → List Nat
  | .readBitsOk fc bits => fc :: (packBits bits).length % 256 :: packBits bits
  | .readRegsOk fc regs => fc :: (regBytes regs).length % 256 :: regBytes regs
  | .writeOk fc addr qv =>
      [fc, addr / 256 % 256, addr % 256, qv / 256 % 256, qv % 256]
  | .exception fc code => [(fc + 0x80) % 256, code]

/-- Modelled from the spec: the server context as built in the source,
`ModbusServerContext(slaves=store, single=True)`: when `single` is set the
one shared store serves every unit identifier; otherwise the unit
identifier selects a per-unit store. -/
structure ModbusServerContext where
  single : Bool
  singleStore : Store
  unitStores : Nat → Option Store

/-- Modelled from the spec: look up the slave store addressed by a unit
identifier. -/
def getSlave (ctx : ModbusServerContext) (unitId : Nat) : Option Store :=
  if ctx.single then some ctx.singleStore else ctx.unitStores unitId

/-- Modelled from the spec: serve one request addressed to a unit
identifier, returning the encoded response bytes. -/
def serve (ctx : ModbusServerContext) (unitId : Nat) (req : Request) : List Nat :=
  match getSlave ctx unitId with
  | some st => encodeResponse (dispatch req st).1
  | none => []

/-- The server context built in the source: the single shared example
store, `single=True`. -/
def exampleServerContext : ModbusServerContext :=
  { single := true, singleStore := initStore, unitStores := fun _ => none }

/-- The example store after a successful multiple-register write. -/
def storeAfterMultiRegWrite : Store :=
  (dispatch (Request.writeMultipleRegisters 0 [7, 8]) initStore).2

/-- The example store after a successful multiple-coil write. -/
def storeAfterMultiCoilWrite : Store :=
  (dispatch (Request.writeMultipleCoils 3 [1, 0, 1]) initStore).2

/-- The example store after a successful single-register write. -/
def storeAfterSingleRegWrite : Store :=
  (dispatch (Request.writeSingleRegister 9 12345) initStore).2

/-- The example store after a successful single-coil write. -/
def storeAfterSingleCoilWrite : Store :=
  (dispatch (Request.writeSingleCoil 4 0xFF00) initStore).2

theorem length_writeRange (l vs : List Nat) (a : Nat) (h : a + vs.length ≤ l.length) :
    (writeRange l a vs).length = l.length := by
  simp only [writeRange, List.length_append, List.length_take, List.length_drop]
  omega

theorem length_readSlice (l : List Nat) (a c : Nat) (h : a + c ≤ l.length) :
    (readSlice l a c).length = c := by
  simp only [readSlice, List.length_take, List.length_drop]
  omega

theorem readSlice_writeRange (l vs : List Nat) (a : Nat) (h : a + vs.length ≤ l.length) :
    readSlice (writeRange l a vs) a vs.length = vs := by
  unfold readSlice writeRange
  rw [List.drop_append_of_le_length (by simp; omega)]
  rw [List.drop_append_of_le_length (by simp; omega)]
  rw [List.drop_eq_nil_of_le (by simp), List.nil_append]
  rw [List.take_left]

theorem take_writeRange (l vs : List Nat) (a : Nat) (h : a + vs.length ≤ l.length) :
    (writeRange l a vs).take a = l.take a := by
  unfold writeRange
  rw [List.take_append_of_le_length (by simp; omega)]
  rw [List.take_append_of_le_length (by simp; omega)]
  rw [List.take_take, Nat.min_self]

theorem drop_writeRange (l vs : List Nat) (a : Nat) (h : a + vs.length ≤ l.length) :
    (writeRange l a vs).drop (a + vs.length) = l.drop (a + vs.length) := by
  unfold writeRange
  have hl : (l.take a ++ vs).length = a + vs.length := by
    simp only [List.length_append, List.length_take]
    omega
  rw [← hl, List.drop_left]

theorem bitOf_le_one (v : Nat) : bitOf v ≤ 1 := by
  unfold bitOf
  split <;> simp

theorem bitOf_zero : bitOf 0 = 0 := rfl

theorem byteFromBits_testBit (bits : List Nat) (j r : Nat) (hr : r < 8) :
    byteFromBits bits j / 2 ^ r % 2 = bitOf (bits.getD (8 * j + r) 0) := by
  have h0 := bitOf_le_one (bits.getD (8 * j) 0)
  have h1 := bitOf_le_one (bits.getD (8 * j + 1) 0)
  have h2 := bitOf_le_one (bits.getD (8 * j + 2) 0)
  have h3 := bitOf_le_one (bits.getD (8 * j + 3) 0)
  have h4 := bitOf_le_one (bits.getD (8 * j + 4) 0)
  have h5 := bitOf_le_one (bits.getD (8 * j + 5) 0)
  have h6 := bitOf_le_one (bits.getD (8 * j + 6) 0)
  have h7 := bitOf_le_one (bits.getD (8 * j + 7) 0)
  unfold byteFromBits
  interval_cases r
  · simp only [Nat.add_zero, pow_zero, Nat.div_one]
    omega
  · rw [show (2 : Nat) ^ 1 = 2 by norm_num]
    omega
  · rw [show (2 : Nat) ^ 2 = 4 by norm_num]
    omega
  · rw [show (2 : Nat) ^ 3 = 8 by norm_num]
    omega
  · rw [show (2 : Nat) ^ 4 = 16 by norm_num]
    omega
  · rw [show (2 : Nat) ^ 5 = 32 by norm_num]
    omega
  · rw [show (2 : Nat) ^ 6 = 64 by norm_num]
    omega
  · rw [show (2 : Nat) ^ 7 = 128 by norm_num]
    omega

theorem packBits_length (bits : List Nat) :
    (packBits bits).length = (bits.length + 7) / 8 := by
  simp [packBits]

theorem packBits_getD (bits : List Nat) (j : Nat) (h : j < (bits.length + 7) / 8) :
    (packBits bits).getD j 0 = byteFromBits bits j := by
  unfold packBits
  have hlen : j < ((List.range ((bits.length + 7) / 8)).map (byteFromBits bits)).length := by
    simpa using h
  rw [List.getD_eq_getElem _ _ hlen]
  simp

theorem regBytes_length (l : List Nat) : (regBytes l).length = 2 * l.length := by
  induction l with
  | nil => rfl
  | cons v rest ih =>
    simp only [regBytes, List.length_cons, ih]
    omega

theorem regBytes_getD_hi (l : List Nat) (i : Nat) (h : i < l.length) :
    (regBytes l).getD (2 * i) 0 = l.getD i 0 / 256 % 256 := by
  induction l generalizing i with
  | nil => simp at h
  | cons v rest ih =>
    cases i with
    | zero => simp [regBytes]
    | succ i2 =>
      have h2 : 2 * (i2 + 1) = 2 * i2 + 1 + 1 := by omega
      rw [h2]
      simp only [regBytes, List.getD_cons_succ]
      exact ih i2 (by simpa using h)

theorem regBytes_getD_lo (l : List Nat) (i : Nat) (h : i < l.length) :
    (regBytes l).getD (2 * i + 1) 0 = l.getD i 0 % 256 := by
  induction l generalizing i with
  | nil => simp at h
  | cons v rest ih =>
    cases i with
    | zero => simp [regBytes]
    | succ i2 =>
      have h2 : 2 * (i2 + 1) + 1 = 2 * i2 + 1 + 1 + 1 := by omega
      rw [h2]
      simp only [regBytes, List.getD_cons_succ]
      exact ih i2 (by simpa using h)

/-- C1: for every write request (single or multiple, coils or holding
registers) that succeeds, a subsequent read of the same address space and
address range returns exactly the written values; a single-coil write of
0xFF00 or 0x0000 stores the corresponding ON/OFF bit and reading returns
that bit. -/
theorem spec_C1_write_read_roundtrip (st : Store) (a v : Nat) (vals bits : List Nat) :
    (∀ st2, dispatch (Request.writeMultipleRegisters a vals) st =
        (Response.writeOk 16 a vals.length, st2) →
      dispatch (Request.readHoldingRegisters a vals.length) st2 =
        (Response.readRegsOk 3 vals, st2)) ∧
    (∀ st2, dispatch (Request.writeMultipleCoils a bits) st =
        (Response.writeOk 15 a bits.length, st2) →
      dispatch (Request.readCoils a bits.length) st2 =
        (Response.readBitsOk 1 bits, st2)) ∧
    (∀ st2, dispatch (Request.writeSingleRegister a v) st =
        (Response.writeOk 6 a v, st2) →
      dispatch (Request.readHoldingRegisters a 1) st2 =
        (Response.readRegsOk 3 [v], st2)) ∧
    (∀ st2, dispatch (Request.writeSingleCoil a v) st =
        (Response.writeOk 5 a v, st2) →
      dispatch (Request.readCoils a 1) st2 =
        (Response.readBitsOk 1 [bitOf v], st2)) := by
  refine ⟨?_, ?_, ?_, ?_⟩
  · intro st2 h
    simp only [dispatch] at h ⊢
    split_ifs at h with h1 h2 h3
    · simp at h
    · simp at h
    · simp at h
    · simp only [Prod.mk.injEq] at h
      obtain ⟨-, rfl⟩ := h
      rw [if_neg (by omega),
        if_neg (by simp only [length_writeRange st.hr vals a (by omega)]; omega)]
      rw [readSlice_writeRange st.hr vals a (by omega)]
  · intro st2 h
    simp only [dispatch] at h ⊢
    split_ifs at h with h1 h2 h3
    · simp at h
    · simp at h
    · simp at h
    · simp only [Prod.mk.injEq] at h
      obtain ⟨-, rfl⟩ := h
      rw [if_neg (by omega),
        if_neg (by simp only [length_writeRange st.co bits a (by omega)]; omega)]
      rw [readSlice_writeRange st.co bits a (by omega)]
  · intro st2 h
    simp only [dispatch] at h ⊢
    split_ifs at h with h1 h2
    · simp at h
    · simp at h
    · simp only [Prod.mk.injEq] at h
      obtain ⟨-, rfl⟩ := h
      rw [if_neg (by omega),
        if_neg (by simp only [length_writeRange st.hr [v] a (by simp; omega)]; omega)]
      have hs := readSlice_writeRange st.hr [v] a (by simp; omega)
      simp only [List.length_singleton] at hs
      rw [hs]
  · intro st2 h
    simp only [dispatch] at h ⊢
    split_ifs at h with h1 h2
    · simp at h
    · simp at h
    · simp only [Prod.mk.injEq] at h
      obtain ⟨-, rfl⟩ := h
      rw [if_neg (by omega),
        if_neg (by simp only [length_writeRange st.co [bitOf v] a (by simp; omega)]; omega)]
      have hs := readSlice_writeRange st.co [bitOf v] a (by simp; omega)
      simp only [List.length_singleton] at hs
      rw [hs]

/-- C1 witness: concrete successful writes on the example store followed by
reads of the same ranges. -/
theorem spec_C1_witness :
    dispatch (Request.readHoldingRegisters 0 2) storeAfterMultiRegWrite =
      (Response.readRegsOk 3 [7, 8], storeAfterMultiRegWrite) ∧
    dispatch (Request.readCoils 3 3) storeAfterMultiCoilWrite =
      (Response.readBitsOk 1 [1, 0, 1], storeAfterMultiCoilWrite) ∧
    dispatch (Request.readHoldingRegisters 9 1) storeAfterSingleRegWrite =
      (Response.readRegsOk 3 [12345], storeAfterSingleRegWrite) ∧
    dispatch (Request.readCoils 4 1) storeAfterSingleCoilWrite =
      (Response.readBitsOk 1 [bitOf 0xFF00], storeAfterSingleCoilWrite) :=
  ⟨(spec_C1_write_read_roundtrip initStore 0 0 [7, 8] []).1 storeAfterMultiRegWrite (by decide),
   (spec_C1_write_read_roundtrip initStore 3 0 [] [1, 0, 1]).2.1 storeAfterMultiCoilWrite
     (by decide),
   (spec_C1_write_read_roundtrip initStore 9 12345 [] []).2.2.1 storeAfterSingleRegWrite
     (by decide),
   (spec_C1_write_read_roundtrip initStore 4 0xFF00 [] []).2.2.2 storeAfterSingleCoilWrite
     (by decide)⟩

/-- C4: a multiple-register or multiple-coil write is atomic with respect
to its request: either it fails with an exception and the whole store is
unchanged, or it succeeds and exactly the addressed range holds the
written values, everything outside that range and every other address
space being untouched. -/
theorem spec_C4_write_atomicity (st : Store) (a : Nat) (vals bits : List Nat) :
    (((dispatch (Request.writeMultipleRegisters a vals) st).2 = st ∧
        ∃ code, (dispatch (Request.writeMultipleRegisters a vals) st).1 =
          Response.exception 16 code) ∨
      ((dispatch (Request.writeMultipleRegisters a vals) st).1 =
          Response.writeOk 16 a vals.length ∧
        (dispatch (Request.writeMultipleRegisters a vals) st).2.hr.length = st.hr.length ∧
        readSlice (dispatch (Request.writeMultipleRegisters a vals) st).2.hr a vals.length =
          vals ∧
        (dispatch (Request.writeMultipleRegisters a vals) st).2.hr.take a = st.hr.take a ∧
        (dispatch (Request.writeMultipleRegisters a vals) st).2.hr.drop (a + vals.length) =
          st.hr.drop (a + vals.length) ∧
        (dispatch (Request.writeMultipleRegisters a vals) st).2.di = st.di ∧
        (dispatch (Request.writeMultipleRegisters a vals) st).2.co = st.co ∧
        (dispatch (Request.writeMultipleRegisters a vals) st).2.ir = st.ir)) ∧
    (((dispatch (Request.writeMultipleCoils a bits) st).2 = st ∧
        ∃ code, (dispatch (Request.writeMultipleCoils a bits) st).1 =
          Response.exception 15 code) ∨
      ((dispatch (Request.writeMultipleCoils a bits) st).1 =
          Response.writeOk 15 a bits.length ∧
        (dispatch (Request.writeMultipleCoils a bits) st).2.co.length = st.co.length ∧
        readSlice (dispatch (Request.writeMultipleCoils a bits) st).2.co a bits.length = bits ∧
        (dispatch (Request.writeMultipleCoils a bits) st).2.co.take a = st.co.take a ∧
        (dispatch (Request.writeMultipleCoils a bits) st).2.co.drop (a + bits.length) =
          st.co.drop (a + bits.length) ∧
        (dispatch (Request.writeMultipleCoils a bits) st).2.di = st.di ∧
        (dispatch (Request.writeMultipleCoils a bits) st).2.hr = st.hr ∧
        (dispatch (Request.writeMultipleCoils a bits) st).2.ir = st.ir)) := by
  constructor
  · simp only [dispatch]
    split_ifs with h1 h2 h3
    · exact Or.inl ⟨rfl, illegalDataValue, rfl⟩
    · exact Or.inl ⟨rfl, illegalDataValue, rfl⟩
    · exact Or.inl ⟨rfl, illegalDataAddress, rfl⟩
    · exact Or.inr ⟨rfl, length_writeRange st.hr vals a (by omega),
        readSlice_writeRange st.hr vals a (by omega),
        take_writeRange st.hr vals a (by omega),
        drop_writeRange st.hr vals a (by omega), rfl, rfl, rfl⟩
  · simp only [dispatch]
    split_ifs with h1 h2 h3
    · exact Or.inl ⟨rfl, illegalDataValue, rfl⟩
    · exact Or.inl ⟨rfl, illegalDataValue, rfl⟩
    · exact Or.inl ⟨rfl, illegalDataAddress, rfl⟩
    · exact Or.inr ⟨rfl, length_writeRange st.co bits a (by omega),
        readSlice_writeRange st.co bits a (by omega),
        take_writeRange st.co bits a (by omega),
        drop_writeRange st.co bits a (by omega), rfl, rfl, rfl⟩

/-- C2 counterexample: two requests whose starting address lies at or
beyond the configured extent of 100 but whose quantity or value is also
outside the permissible range are answered with ILLEGAL_DATA_VALUE, not
ILLEGAL_DATA_ADDRESS: reading holding registers at address 200 with count
5000, and writing single coil 150 with the impermissible value 7. -/
theorem spec_C2_counterexample :
    100 ≤ 200 ∧ initStore.hr.length = 100 ∧
    (dispatch (Request.readHoldingRegisters 200 5000) initStore).1 =
      Response.exception 3 illegalDataValue ∧
    Response.exception 3 illegalDataValue ≠ Response.exception 3 illegalDataAddress ∧
    100 ≤ 150 ∧ initStore.co.length = 100 ∧
    (dispatch (Request.writeSingleCoil 150 7) initStore).1 =
      Response.exception 5 illegalDataValue ∧
    Response.exception 5 illegalDataValue ≠ Response.exception 5 illegalDataAddress := by
  decide

/-- C2 (amended): for every supported-function-code request whose quantity
is within the protocol limits and whose written values are within the
permissible range, whenever address + count exceeds the configured extent
of the addressed space (in particular whenever the starting address is at
or beyond the extent) the response is the ILLEGAL_DATA_ADDRESS (0x02)
exception and the store is not mutated. -/
theorem spec_C2_illegal_data_address (st : Store) (a c v : Nat) (vals bits : List Nat) :
    (1 ≤ c → c ≤ 2000 → st.co.length < a + c →
      dispatch (Request.readCoils a c) st = (Response.exception 1 illegalDataAddress, st)) ∧
    (1 ≤ c → c ≤ 2000 → st.di.length < a + c →
      dispatch (Request.readDiscreteInputs a c) st =
        (Response.exception 2 illegalDataAddress, st)) ∧
    (1 ≤ c → c ≤ 2000 → st.hr.length < a + c →
      dispatch (Request.readHoldingRegisters a c) st =
        (Response.exception 3 illegalDataAddress, st)) ∧
    (1 ≤ c → c ≤ 2000 → st.ir.length < a + c →
      dispatch (Request.readInputRegisters a c) st =
        (Response.exception 4 illegalDataAddress, st)) ∧
    ((v = 0 ∨ v = 0xFF00) → st.co.length < a + 1 →
      dispatch (Request.writeSingleCoil a v) st =
        (Response.exception 5 illegalDataAddress, st)) ∧
    (v < 65536 → st.hr.length < a + 1 →
      dispatch (Request.writeSingleRegister a v) st =
        (Response.exception 6 illegalDataAddress, st)) ∧
    (1 ≤ bits.length → bits.length ≤ 1968 → (∀ b ∈ bits, b < 2) →
      st.co.length < a + bits.length →
      dispatch (Request.writeMultipleCoils a bits) st =
        (Response.exception 15 illegalDataAddress, st)) ∧
    (1 ≤ vals.length → vals.length ≤ 123 → (∀ x ∈ vals, x < 65536) →
      st.hr.length < a + vals.length →
      dispatch (Request.writeMultipleRegisters a vals) st =
        (Response.exception 16 illegalDataAddress, st)) := by
  refine ⟨?_, ?_, ?_, ?_, ?_, ?_, ?_, ?_⟩
  · intro h1 h2 h3
    simp only [dispatch]
    rw [if_neg (by omega), if_pos h3]
  · intro h1 h2 h3
    simp only [dispatch]
    rw [if_neg (by omega), if_pos h3]
  · intro h1 h2 h3
    simp only [dispatch]
    rw [if_neg (by omega), if_pos h3]
  · intro h1 h2 h3
    simp only [dispatch]
    rw [if_neg (by omega), if_pos h3]
  · intro h1 h2
    simp only [dispatch]
    rw [if_neg (by omega), if_pos h2]
  · intro h1 h2
    simp only [dispatch]
    rw [if_neg (by omega), if_pos h2]
  · intro h1 h2 h3 h4
    simp only [dispatch]
    rw [if_neg (by omega), if_neg (by push_neg; intro b hb; have := h3 b hb; omega),
      if_pos h4]
  · intro h1 h2 h3 h4
    simp only [dispatch]
    rw [if_neg (by omega), if_neg (by push_neg; intro x hx; have := h3 x hx; omega),
      if_pos h4]

/-- C2 witness: each supported request shape with an in-range quantity and
value but an out-of-extent address on the example store is answered with
the ILLEGAL_DATA_ADDRESS exception and the store is unchanged. -/
theorem spec_C2_witness :
    dispatch (Request.readCoils 150 5) initStore =
      (Response.exception 1 illegalDataAddress, initStore) ∧
    dispatch (Request.readDiscreteInputs 150 5) initStore =
      (Response.exception 2 illegalDataAddress, initStore) ∧
    dispatch (Request.readHoldingRegisters 150 5) initStore =
      (Response.exception 3 illegalDataAddress, initStore) ∧
    dispatch (Request.readInputRegisters 150 5) initStore =
      (Response.exception 4 illegalDataAddress, initStore) ∧
    dispatch (Request.writeSingleCoil 150 0xFF00) initStore =
      (Response.exception 5 illegalDataAddress, initStore) ∧
    dispatch (Request.writeSingleRegister 150 99) initStore =
      (Response.exception 6 illegalDataAddress, initStore) ∧
    dispatch (Request.writeMultipleCoils 150 [1, 0]) initStore =
      (Response.exception 15 illegalDataAddress, initStore) ∧
    dispatch (Request.writeMultipleRegisters 150 [5, 6]) initStore =
      (Response.exception 16 illegalDataAddress, initStore) :=
  ⟨(spec_C2_illegal_data_address initStore 150 5 0 [] []).1
      (by decide) (by decide) (by decide),
   (spec_C2_illegal_data_address initStore 150 5 0 [] []).2.1
      (by decide) (by decide) (by decide),
   (spec_C2_illegal_data_address initStore 150 5 0 [] []).2.2.1
      (by decide) (by decide) (by decide),
   (spec_C2_illegal_data_address initStore 150 5 0 [] []).2.2.2.1
      (by decide) (by decide) (by decide),
   (spec_C2_illegal_data_address initStore 150 5 0xFF00 [] []).2.2.2.2.1
      (by decide) (by decide),
   (spec_C2_illegal_data_address initStore 150 5 99 [] []).2.2.2.2.2.1
      (by decide) (by decide),
   (spec_C2_illegal_data_address initStore 150 5 0 [] [1, 0]).2.2.2.2.2.2.1
      (by decide) (by decide) (by decide) (by decide),
   (spec_C2_illegal_data_address initStore 150 5 0 [5, 6] []).2.2.2.2.2.2.2
      (by decide) (by decide) (by decide) (by decide)⟩

/-- C3: every read with count outside 1..2000, every write-multiple with
register count outside 1..123 or bit count outside 1..1968, and every
write whose value is outside the permissible range for the space (a coil
value other than 0x0000/0xFF00, a register value not fitting 16 bits, a
multi-coil bit other than 0/1) is answered with the ILLEGAL_DATA_VALUE
(0x03) exception, the store unchanged. -/
theorem spec_C3_illegal_data_value (st : Store) (a c v : Nat) (vals bits : List Nat) :
    (c < 1 ∨ 2000 < c →
      dispatch (Request.readCoils a c) st = (Response.exception 1 illegalDataValue, st)) ∧
    (c < 1 ∨ 2000 < c →
      dispatch (Request.readDiscreteInputs a c) st =
        (Response.exception 2 illegalDataValue, st)) ∧
    (c < 1 ∨ 2000 < c →
      dispatch (Request.readHoldingRegisters a c) st =
        (Response.exception 3 illegalDataValue, st)) ∧
    (c < 1 ∨ 2000 < c →
      dispatch (Request.readInputRegisters a c) st =
        (Response.exception 4 illegalDataValue, st)) ∧
    (vals.length < 1 ∨ 123 < vals.length →
      dispatch (Request.writeMultipleRegisters a vals) st =
        (Response.exception 16 illegalDataValue, st)) ∧
    (bits.length < 1 ∨ 1968 < bits.length →
      dispatch (Request.writeMultipleCoils a bits) st =
        (Response.exception 15 illegalDataValue, st)) ∧
    (v ≠ 0 ∧ v ≠ 0xFF00 →
      dispatch (Request.writeSingleCoil a v) st =
        (Response.exception 5 illegalDataValue, st)) ∧
    (65536 ≤ v →
      dispatch (Request.writeSingleRegister a v) st =
        (Response.exception 6 illegalDataValue, st)) ∧
    ((∃ x ∈ vals, 65536 ≤ x) →
      dispatch (Request.writeMultipleRegisters a vals) st =
        (Response.exception 16 illegalDataValue, st)) ∧
    ((∃ b ∈ bits, 2 ≤ b) →
      dispatch (Request.writeMultipleCoils a bits) st =
        (Response.exception 15 illegalDataValue, st)) := by
  refine ⟨?_, ?_, ?_, ?_, ?_, ?_, ?_, ?_, ?_, ?_⟩
  · intro h1
    simp only [dispatch]
    rw [if_pos h1]
  · intro h1
    simp only [dispatch]
    rw [if_pos h1]
  · intro h1
    simp only [dispatch]
    rw [if_pos h1]
  · intro h1
    simp only [dispatch]
    rw [if_pos h1]
  · intro h1
    simp only [dispatch]
    rw [if_pos h1]
  · intro h1
    simp only [dispatch]
    rw [if_pos h1]
  · intro h1
    simp only [dispatch]
    rw [if_pos h1]
  · intro h1
    simp only [dispatch]
    rw [if_pos h1]
  · intro h1
    simp only [dispatch]
    by_cases hq : vals.length < 1 ∨ 123 < vals.length
    · rw [if_pos hq]
    · rw [if_neg hq, if_pos h1]
  · intro h1
    simp only [dispatch]
    by_cases hq : bits.length < 1 ∨ 1968 < bits.length
    · rw [if_pos hq]
    · rw [if_neg hq, if_pos h1]

/-- C3 witness: concrete requests with out-of-limit quantities or
impermissible values on the example store, each answered with
ILLEGAL_DATA_VALUE. -/
theorem spec_C3_witness :
    dispatch (Request.readCoils 0 0) initStore =
      (Response.exception 1 illegalDataValue, initStore) ∧
    dispatch (Request.readDiscreteInputs 0 2001) initStore =
      (Response.exception 2 illegalDataValue, initStore) ∧
    dispatch (Request.readHoldingRegisters 0 0) initStore =
      (Response.exception 3 illegalDataValue, initStore) ∧
    dispatch (Request.readInputRegisters 0 3000) initStore =
      (Response.exception 4 illegalDataValue, initStore) ∧
    dispatch (Request.writeMultipleRegisters 0 []) initStore =
      (Response.exception 16 illegalDataValue, initStore) ∧
    dispatch (Request.writeMultipleCoils 0 []) initStore =
      (Response.exception 15 illegalDataValue, initStore) ∧
    dispatch (Request.writeSingleCoil 0 7) initStore =
      (Response.exception 5 illegalDataValue, initStore) ∧
    dispatch (Request.writeSingleRegister 0 70000) initStore =
      (Response.exception 6 illegalDataValue, initStore) ∧
    dispatch (Request.writeMultipleRegisters 0 [70000]) initStore =
      (Response.exception 16 illegalDataValue, initStore) ∧
    dispatch (Request.writeMultipleCoils 0 [2]) initStore =
      (Response.exception 15 illegalDataValue, initStore) :=
  ⟨(spec_C3_illegal_data_value initStore 0 0 0 [] []).1 (Or.inl (by decide)),
   (spec_C3_illegal_data_value initStore 0 2001 0 [] []).2.1 (Or.inr (by decide)),
   (spec_C3_illegal_data_value initStore 0 0 0 [] []).2.2.1 (Or.inl (by decide)),
   (spec_C3_illegal_data_value initStore 0 3000 0 [] []).2.2.2.1 (Or.inr (by decide)),
   (spec_C3_illegal_data_value initStore 0 0 0 [] []).2.2.2.2.1 (Or.inl (by decide)),
   (spec_C3_illegal_data_value initStore 0 0 0 [] []).2.2.2.2.2.1 (Or.inl (by decide)),
   (spec_C3_illegal_data_value initStore 0 0 7 [] []).2.2.2.2.2.2.1 (by decide),
   (spec_C3_illegal_data_value initStore 0 0 70000 [] []).2.2.2.2.2.2.2.1 (by decide),
   (spec_C3_illegal_data_value initStore 0 0 0 [70000] []).2.2.2.2.2.2.2.2.1
      ⟨70000, by decide, by decide⟩,
   (spec_C3_illegal_data_value initStore 0 0 0 [] [2]).2.2.2.2.2.2.2.2.2
      ⟨2, by decide, by decide⟩⟩

/-- C5: for every valid read request whose address + count lies within the
configured extent, the success response is the echoed function code, a
byte-count byte, and a data portion of exactly ceil(count/8) bytes for the
bit spaces or 2*count bytes for the register spaces; registers are encoded
big-endian (high byte then low byte), bit arrays are packed with bit 0 at
the lowest address and zero-padded to a byte boundary. -/
theorem spec_C5_read_payload_shape (st : Store) (a c : Nat) :
    (1 ≤ c → c ≤ 2000 → a + c ≤ st.co.length →
      ∃ data : List Nat,
        encodeResponse (dispatch (Request.readCoils a c) st).1 =
          1 :: data.length % 256 :: data ∧
        data.length = (c + 7) / 8 ∧
        (∀ i, i < c →
          data.getD (i / 8) 0 / 2 ^ (i % 8) % 2 = bitOf ((readSlice st.co a c).getD i 0)) ∧
        (∀ i, c ≤ i → i < 8 * data.length → data.getD (i / 8) 0 / 2 ^ (i % 8) % 2 = 0)) ∧
    (1 ≤ c → c ≤ 2000 → a + c ≤ st.di.length →
      ∃ data : List Nat,
        encodeResponse (dispatch (Request.readDiscreteInputs a c) st).1 =
          2 :: data.length % 256 :: data ∧
        data.length = (c + 7) / 8 ∧
        (∀ i, i < c →
          data.getD (i / 8) 0 / 2 ^ (i % 8) % 2 = bitOf ((readSlice st.di a c).getD i 0)) ∧
        (∀ i, c ≤ i → i < 8 * data.length → data.getD (i / 8) 0 / 2 ^ (i % 8) % 2 = 0)) ∧
    (1 ≤ c → c ≤ 2000 → a + c ≤ st.hr.length →
      ∃ data : List Nat,
        encodeResponse (dispatch (Request.readHoldingRegisters a c) st).1 =
          3 :: data.length % 256 :: data ∧
        data.length = 2 * c ∧
        (∀ i, i < c →
          data.getD (2 * i) 0 = (readSlice st.hr a c).getD i 0 / 256 % 256 ∧
          data.getD (2 * i + 1) 0 = (readSlice st.hr a c).getD i 0 % 256)) ∧
    (1 ≤ c → c ≤ 2000 → a + c ≤ st.ir.length →
      ∃ data : List Nat,
        encodeResponse (dispatch (Request.readInputRegisters a c) st).1 =
          4 :: data.length % 256 :: data ∧
        data.length = 2 * c ∧
        (∀ i, i < c →
          data.getD (2 * i) 0 = (readSlice st.ir a c).getD i 0 / 256 % 256 ∧
          data.getD (2 * i + 1) 0 = (readSlice st.ir a c).getD i 0 % 256)) := by
  refine ⟨?_, ?_, ?_, ?_⟩
  · intro h1 h2 h3
    have hsl : (readSlice st.co a c).length = c := length_readSlice st.co a c h3
    have hd : dispatch (Request.readCoils a c) st =
        (Response.readBitsOk 1 (readSlice st.co a c), st) := by
      simp only [dispatch]
      rw [if_neg (by omega), if_neg (by omega)]
    refine ⟨packBits (readSlice st.co a c), by rw [hd]; rfl, ?_, ?_, ?_⟩
    · rw [packBits_length, hsl]
    · intro i hi
      rw [packBits_getD _ _ (by rw [hsl]; omega)]
      rw [byteFromBits_testBit _ _ _ (by omega)]
      have he : 8 * (i / 8) + i % 8 = i := by omega
      rw [he]
    · intro i hci hlt
      rw [packBits_length, hsl] at hlt
      rw [packBits_getD _ _ (by rw [hsl]; omega)]
      rw [byteFromBits_testBit _ _ _ (by omega)]
      have he : 8 * (i / 8) + i % 8 = i := by omega
      rw [he, List.getD_eq_default _ _ (by omega), bitOf_zero]
  · intro h1 h2 h3
    have hsl : (readSlice st.di a c).length = c := length_readSlice st.di a c h3
    have hd : dispatch (Request.readDiscreteInputs a c) st =
        (Response.readBitsOk 2 (readSlice st.di a c), st) := by
      simp only [dispatch]
      rw [if_neg (by omega), if_neg (by omega)]
    refine ⟨packBits (readSlice st.di a c), by rw [hd]; rfl, ?_, ?_, ?_⟩
    · rw [packBits_length, hsl]
    · intro i hi
      rw [packBits_getD _ _ (by rw [hsl]; omega)]
      rw [byteFromBits_testBit _ _ _ (by omega)]
      have he : 8 * (i / 8) + i % 8 = i := by omega
      rw [he]
    · intro i hci hlt
      rw [packBits_length, hsl] at hlt
      rw [packBits_getD _ _ (by rw [hsl]; omega)]
      rw [byteFromBits_testBit _ _ _ (by omega)]
      have he : 8 * (i / 8) + i % 8 = i := by omega
      rw [he, List.getD_eq_default _ _ (by omega), bitOf_zero]
  · intro h1 h2 h3
    have hsl : (readSlice st.hr a c).length = c := length_readSlice st.hr a c h3
    have hd : dispatch (Request.readHoldingRegisters a c) st =
        (Response.readRegsOk 3 (readSlice st.hr a c), st) := by
      simp only [dispatch]
      rw [if_neg (by omega), if_neg (by omega)]
    refine ⟨regBytes (readSlice st.hr a c), by rw [hd]; rfl, ?_, ?_⟩
    · rw [regBytes_length, hsl]
    · intro i hi
      exact ⟨regBytes_getD_hi _ i (by omega), regBytes_getD_lo _ i (by omega)⟩
  · intro h1 h2 h3
    have hsl : (readSlice st.ir a c).length = c := length_readSlice st.ir a c h3
    have hd : dispatch (Request.readInputRegisters a c) st =
        (Response.readRegsOk 4 (readSlice st.ir a c), st) := by
      simp only [dispatch]
      rw [if_neg (by omega), if_neg (by omega)]
    refine ⟨regBytes (readSlice st.ir a c), by rw [hd]; rfl, ?_, ?_⟩
    · rw [regBytes_length, hsl]
    · intro i hi
      exact ⟨regBytes_getD_hi _ i (by omega), regBytes_getD_lo _ i (by omega)⟩

/-- C5 witness: reading five entries of each space of the example store
gives a data portion of 1 byte for the bit spaces and 10 bytes for the
register spaces, with the stated packing. -/
theorem spec_C5_witness :
    (∃ data : List Nat,
        encodeResponse (dispatch (Request.readCoils 0 5) initStore).1 =
          1 :: data.length % 256 :: data ∧
        data.length = (5 + 7) / 8 ∧
        (∀ i, i < 5 →
          data.getD (i / 8) 0 / 2 ^ (i % 8) % 2 =
            bitOf ((readSlice initStore.co 0 5).getD i 0)) ∧
        (∀ i, 5 ≤ i → i < 8 * data.length → data.getD (i / 8) 0 / 2 ^ (i % 8) % 2 = 0)) ∧
    (∃ data : List Nat,
        encodeResponse (dispatch (Request.readDiscreteInputs 0 5) initStore).1 =
          2 :: data.length % 256 :: data ∧
        data.length = (5 + 7) / 8 ∧
        (∀ i, i < 5 →
          data.getD (i / 8) 0 / 2 ^ (i % 8) % 2 =
            bitOf ((readSlice initStore.di 0 5).getD i 0)) ∧
        (∀ i, 5 ≤ i → i < 8 * data.length → data.getD (i / 8) 0 / 2 ^ (i % 8) % 2 = 0)) ∧
    (∃ data : List Nat,
        encodeResponse (dispatch (Request.readHoldingRegisters 0 5) initStore).1 =
          3 :: data.length % 256 :: data ∧
        data.length = 2 * 5 ∧
        (∀ i, i < 5 →
          data.getD (2 * i) 0 = (readSlice initStore.hr 0 5).getD i 0 / 256 % 256 ∧
          data.getD (2 * i + 1) 0 = (readSlice initStore.hr 0 5).getD i 0 % 256)) ∧
    (∃ data : List Nat,
        encodeResponse (dispatch (Request.readInputRegisters 0 5) initStore).1 =
          4 :: data.length % 256 :: data ∧
        data.length = 2 * 5 ∧
        (∀ i, i < 5 →
          data.getD (2 * i) 0 = (readSlice initStore.ir 0 5).getD i 0 / 256 % 256 ∧
          data.getD (2 * i + 1) 0 = (readSlice initStore.ir 0 5).getD i 0 % 256)) :=
  ⟨(spec_C5_read_payload_shape initStore 0 5).1 (by decide) (by decide) (by decide),
   (spec_C5_read_payload_shape initStore 0 5).2.1 (by decide) (by decide) (by decide),
   (spec_C5_read_payload_shape initStore 0 5).2.2.1 (by decide) (by decide) (by decide),
   (spec_C5_read_payload_shape initStore 0 5).2.2.2 (by decide) (by decide) (by decide)⟩

/-- C6: with the store as configured in the code (100 holding registers,
each initialized to 20), reading holding registers at address 0, count 5,
succeeds and the encoded response is the echoed function code 0x03, the
byte count 10, then the five big-endian register values 0x00 0x14. -/
theorem spec_C6_read_five_holding_registers :
    encodeResponse (dispatch (Request.readHoldingRegisters 0 5) initStore).1 =
      [0x03, 10, 0x00, 0x14, 0x00, 0x14, 0x00, 0x14, 0x00, 0x14, 0x00, 0x14] ∧
    (dispatch (Request.readHoldingRegisters 0 5) initStore).2 = initStore := by
  constructor <;> decide

/-- C7: with the same 100-register store, writing single register 150 with
value 99 yields the exception bytes 0x86 0x02 (function code 0x06 with the
high bit set, ILLEGAL_DATA_ADDRESS) and leaves the store unchanged. -/
theorem spec_C7_write_beyond_extent :
    encodeResponse (dispatch (Request.writeSingleRegister 150 99) initStore).1 =
      [0x86, 0x02] ∧
    (dispatch (Request.writeSingleRegister 150 99) initStore).2 = initStore := by
  constructor <;> decide

/-- C8: function code 0x2B is not among the recognized function codes, is
treated as unsupported, and is answered with the exception bytes 0xAB 0x01
(function code with the high bit set, ILLEGAL_FUNCTION); the store is not
touched. -/
theorem spec_C8_unsupported_function_code :
    0x2B ∉ recognizedFunctionCodes ∧
    encodeResponse (dispatch (Request.unsupported 0x2B) initStore).1 = [0xAB, 0x01] ∧
    (dispatch (Request.unsupported 0x2B) initStore).2 = initStore := by
  refine ⟨by decide, by decide, by decide⟩

/-- C9: at startup all four address spaces are configured identically with
base address 0 and 100 entries all equal to 20 — including the single-bit
coil and discrete-input spaces, whose initial entries therefore hold 20,
not a value of the 1-bit range 0 or 1. -/
theorem spec_C9_initial_configuration :
    exampleSlaveContext.di.address = 0 ∧
    exampleSlaveContext.co.address = 0 ∧
    exampleSlaveContext.hr.address = 0 ∧
    exampleSlaveContext.ir.address = 0 ∧
    exampleSlaveContext.di.values = List.replicate 100 20 ∧
    exampleSlaveContext.co.values = List.replicate 100 20 ∧
    exampleSlaveContext.hr.values = List.replicate 100 20 ∧
    exampleSlaveContext.ir.values = List.replicate 100 20 ∧
    initStore.co.length = 100 ∧
    (∀ v ∈ initStore.co, v = 20) ∧ (∀ v ∈ initStore.di, v = 20) ∧
    ¬ (20 = 0 ∨ 20 = 1) := by
  refine ⟨rfl, rfl, rfl, rfl, rfl, rfl, rfl, rfl, by decide, by decide, by decide, by decide⟩

/-- C10: the server context is created with single=True, so unit-identifier
addressing is ignored: any two requests identical except for the unit
identifier are served from the same single Register Store and produce the
same response bytes. -/
theorem spec_C10_unit_id_ignored :
    ∀ u1 u2 : Nat, ∀ req : Request,
      getSlave exampleServerContext u1 = some initStore ∧
      serve exampleServerContext u1 req = serve exampleServerContext u2 req := by
  intro u1 u2 req
  exact ⟨rfl, rfl⟩
